import Mathlib

/-!
Shallow embedding of the abandoned-cart application (BigCommerce webhooks +
browse tracking + periodic abandonment scans backed by Postgres).

The embedding follows the full variant of the service (the one with test
mode and the browse-abandonment track); the two earlier variants share the
same upsert / cart-scan SQL verbatim.  Timestamps are modelled as `Int`
seconds; SQL `NOW()` is an explicit `now` argument.  SQL `NULL`able columns
are `Option`; the SQL `INTERVAL` literals `1 hour`, `2 hours`,
`24 hours` become `3600`, `7200`, `86400`.
-/

namespace AbandonedCart

/-- One line item inside a stored cart snapshot (only the fields the
service reads: `name`, `image_url`, `url`, `sale_price`, `list_price`). -/
structure LineItem where
  name : Option String
  image_url : Option String
  url : Option String
  sale_price : Option Int
  list_price : Option Int
deriving Repr, DecidableEq

/-- The `cart_data` JSONB payload: `line_items` with its three item arrays
(`physical_items`, `digital_items`, `custom_items`). -/
structure CartData where
  physical_items : List LineItem
  digital_items : List LineItem
  custom_items : List LineItem
deriving Repr, DecidableEq

/-- A row of the `abandoned_carts` table. -/
structure Cart where
  id : Nat
  cart_id : String
  customer_email : Option String
  customer_id : Option Int
  cart_data : CartData
  cart_total : Int
  created_at : Int
  updated_at : Int
  converted : Bool
  email_sent_1 : Bool
  email_sent_2 : Bool
  email_sent_3 : Bool
deriving Repr, DecidableEq

/-- A row of the `browse_events` table. -/
structure BrowseEvent where
  id : Nat
  session_id : Option String
  customer_email : Option String
  product_id : Int
  product_name : Option String
  product_url : Option String
  product_image : Option String
  product_price : Int
  viewed_at : Int
  added_to_cart : Bool
  email_sent : Bool
deriving Repr, DecidableEq

/-- A row of the `email_log` table. -/
structure EmailLogEntry where
  email_type : String
  recipient_email : String
  subject : Option String
  cart_id : Option String
  product_id : Option Int
  sent_at : Int
deriving Repr, DecidableEq

/-- The persistent store: the three tables. -/
structure Store where
  carts : List Cart
  browse_events : List BrowseEvent
  email_log : List EmailLogEntry
deriving Repr, DecidableEq

/-- Test-mode configuration (`TEST_MODE` / `TEST_EMAIL`). -/
structure Config where
  test_mode : Bool
  test_email : String
deriving Repr, DecidableEq

/-- SQL `COALESCE(x, y)` on nullable values. -/
def sqlCoalesce {α : Type} (x y : Option α) : Option α :=
  match x with
  | some v => some v
  | none => y

/-- SQL `customer_email IS NOT NULL AND customer_email != empty`. -/
def emailPresent (e : Option String) : Bool :=
  match e with
  | none => false
  | some s => s ≠ ""

/-- JS `[...(physical_items||[]), ...(digital_items||[]), ...(custom_items||[])]`. -/
def allItems (d : CartData) : List LineItem :=
  d.physical_items ++ d.digital_items ++ d.custom_items

/-- JS `firstItem.name || the default product name` where `firstItem = allItems[0] || {}`. -/
def cartProductName (d : CartData) : String :=
  match (allItems d).head? with
  | none => "Your items"
  | some it => it.name.getD "Your items"

/-- Subject line of the stage-1 cart email. -/
def cartSubject (d : CartData) : String :=
  "Oops! You left " ++ cartProductName d ++ " in your cart"

/-- The conflict branch of the cart upsert (`ON CONFLICT (cart_id) DO UPDATE`):
coalesces `customer_email` / `customer_id`, replaces `cart_data`,
`cart_total`, `updated_at`; touches nothing else. -/
def conflictUpdate (now : Int) (cartId : String) (email : Option String)
    (custId : Option Int) (cdata : CartData) (ctotal : Int) (c : Cart) : Cart :=
  if c.cart_id == cartId then
    { c with
      customer_email := sqlCoalesce email c.customer_email,
      customer_id := sqlCoalesce custId c.customer_id,
      cart_data := cdata,
      cart_total := ctotal,
      updated_at := now }
  else c

/-- The freshly inserted row of the cart upsert (DB defaults:
`created_at = updated_at = CURRENT_TIMESTAMP`, `converted = FALSE`, the
three `email_sent_k` default `FALSE`). -/
def newCartRow (now : Int) (freshId : Nat) (cartId : String)
    (email : Option String) (custId : Option Int) (cdata : CartData)
    (ctotal : Int) : Cart :=
  { id := freshId
    cart_id := cartId
    customer_email := email
    customer_id := custId
    cart_data := cdata
    cart_total := ctotal
    created_at := now
    updated_at := now
    converted := false
    email_sent_1 := false
    email_sent_2 := false
    email_sent_3 := false }

/-- `INSERT INTO abandoned_carts ... ON CONFLICT (cart_id) DO UPDATE ...`
as issued by the cart-created and cart-updated webhooks. -/
def upsertCart (st : Store) (now : Int) (freshId : Nat) (cartId : String)
    (email : Option String) (custId : Option Int) (cdata : CartData)
    (ctotal : Int) : Store :=
  if st.carts.any (fun c => c.cart_id == cartId) then
    { st with carts := st.carts.map (conflictUpdate now cartId email custId cdata ctotal) }
  else
    { st with carts := st.carts ++ [newCartRow now freshId cartId email custId cdata ctotal] }

/-- `UPDATE abandoned_carts SET converted = TRUE, updated_at = CURRENT_TIMESTAMP
WHERE cart_id = $1` issued by the order-created webhook. -/
def markConverted (st : Store) (now : Int) (cartId : String) : Store :=
  { st with
    carts := st.carts.map (fun c =>
      if c.cart_id == cartId then { c with converted := true, updated_at := now } else c) }

/-- `INSERT INTO browse_events ...` issued by the tracking endpoint
(DB defaults: `viewed_at = CURRENT_TIMESTAMP`, `added_to_cart = FALSE`,
`email_sent = FALSE`). -/
def recordView (st : Store) (now : Int) (freshId : Nat)
    (sessionId : Option String) (email : Option String) (productId : Int)
    (name : Option String) (url : Option String) (image : Option String)
    (price : Int) : Store :=
  { st with
    browse_events := st.browse_events ++
      [{ id := freshId, session_id := sessionId, customer_email := email,
         product_id := productId, product_name := name, product_url := url,
         product_image := image, product_price := price, viewed_at := now,
         added_to_cart := false, email_sent := false }] }

/-- JS `String.prototype.toLowerCase`, modelled character-wise. -/
def lowerStr (s : String) : String :=
  String.mk (s.data.map Char.toLower)

/-- The test-mode gate inside `sendEmailViaMailerLite`:
`TEST_MODE && toEmail.toLowerCase() !== TEST_EMAIL.toLowerCase()`. -/
def restrictedSkip (cfg : Config) (toEmail : String) : Bool :=
  cfg.test_mode && !(lowerStr toEmail == lowerStr cfg.test_email)

/-- `sendEmailViaMailerLite`: returns `false` without any external call when
the test-mode gate rejects the recipient; otherwise the outcome of the
external MailerLite delivery, abstracted as the oracle `deliver`. -/
def sendEmailViaMailerLite (cfg : Config) (deliver : String → Bool)
    (toEmail : String) : Bool :=
  if restrictedSkip cfg toEmail then false else deliver toEmail

/-- The `WHERE` clause of the cart-track scan query: email present,
`converted = FALSE`, `email_sent_1 = FALSE`,
`updated_at < NOW() - INTERVAL 1 hour`. -/
def cartEligible (now : Int) (c : Cart) : Bool :=
  emailPresent c.customer_email && !c.converted && !c.email_sent_1 &&
    decide (c.updated_at < now - 3600)

/-- The cart-track scan query: filter by `cartEligible`,
`ORDER BY updated_at ASC`, `LIMIT 10`. -/
def selectAbandonedCarts (st : Store) (now : Int) : List Cart :=
  (((st.carts.filter (cartEligible now)).insertionSort
    (fun a b => a.updated_at ≤ b.updated_at)).take 10)

/-- Body of the cart-track loop for one selected row `c`: test-mode skip
(`continue`), else attempt delivery; on success set `email_sent_1 = TRUE`
for that row id and append one `email_log` row; on failure leave the store
unchanged. -/
def processCartCandidate (cfg : Config) (deliver : String → Bool) (now : Int)
    (st : Store) (c : Cart) : Store :=
  match c.customer_email with
  | none => st
  | some email =>
    if restrictedSkip cfg email then st
    else if sendEmailViaMailerLite cfg deliver email then
      { st with
        carts := st.carts.map (fun r =>
          if r.id == c.id then { r with email_sent_1 := true } else r),
        email_log := st.email_log ++
          [{ email_type := "abandoned_cart_1", recipient_email := email,
             subject := some (cartSubject c.cart_data), cart_id := some c.cart_id,
             product_id := none, sent_at := now }] }
    else st

/-- `processAbandonedCarts`: one scan run over the selected snapshot. -/
def processAbandonedCarts (cfg : Config) (deliver : String → Bool) (now : Int)
    (st : Store) : Store :=
  (selectAbandonedCarts st now).foldl (processCartCandidate cfg deliver now) st

/-- Row-level `WHERE` clause of the browse-track email-selection query
(before the `NOT EXISTS` subquery): email present, `email_sent = FALSE`,
`viewed_at < NOW() - INTERVAL 2 hours`. -/
def browseRowOk (now : Int) (b : BrowseEvent) : Bool :=
  emailPresent b.customer_email && !b.email_sent &&
    decide (b.viewed_at < now - 7200)

/-- The `NOT EXISTS` subquery of the browse-track selection, negated: a
non-converted cart for this email updated within the last 24 hours. -/
def hasBlockingCart (st : Store) (now : Int) (email : String) : Bool :=
  st.carts.any (fun c =>
    c.customer_email == some email && !c.converted &&
      decide (c.updated_at > now - 86400))

/-- First-occurrence deduplication, realizing `SELECT DISTINCT` (the query
has no `ORDER BY`, so any order is an admissible realization). -/
def dedupFirst (l : List String) : List String :=
  l.foldl (fun acc e => if e ∈ acc then acc else acc ++ [e]) []

/-- The distinct emails qualifying for the browse track, before `LIMIT`. -/
def browseQualifyingEmails (st : Store) (now : Int) : List String :=
  dedupFirst (((st.browse_events.filter (browseRowOk now)).filterMap
      (fun b => b.customer_email)).filter
    (fun e => !hasBlockingCart st now e))

/-- The browse-track email-selection query (`SELECT DISTINCT ... LIMIT 10`). -/
def browseSelectedEmails (st : Store) (now : Int) : List String :=
  (browseQualifyingEmails st now).take 10

/-- `WHERE` clause of the per-email product query: matching email,
`email_sent = FALSE`, `viewed_at < NOW() - INTERVAL 2 hours`. -/
def browseRowFor (now : Int) (email : String) (b : BrowseEvent) : Bool :=
  b.customer_email == some email && !b.email_sent &&
    decide (b.viewed_at < now - 7200)

/-- The rows the per-email product query ranges over. -/
def rowsFor (st : Store) (now : Int) (email : String) : List BrowseEvent :=
  st.browse_events.filter (browseRowFor now email)

/-- The row with maximal `viewed_at` (first among ties), realizing
`DISTINCT ON (product_id) ... ORDER BY product_id, viewed_at DESC`
within one product group. -/
def argmaxViewed : List BrowseEvent → Option BrowseEvent
  | [] => none
  | b :: bs =>
    match argmaxViewed bs with
    | none => some b
    | some m => if m.viewed_at ≤ b.viewed_at then some b else some m

/-- Latest view per distinct product (`SELECT DISTINCT ON (product_id) ...
ORDER BY product_id, viewed_at DESC`); the relative order of the
representatives is irrelevant because the JS then re-sorts them. -/
def latestPerProduct (rows : List BrowseEvent) : List BrowseEvent :=
  (rows.map (fun b => b.product_id)).dedup.filterMap
    (fun pid => argmaxViewed (rows.filter (fun b => b.product_id == pid)))

/-- The per-email product selection: `DISTINCT ON (product_id)` query, then
JS `sort((a, b) => new Date(b.viewed_at) - new Date(a.viewed_at))` (recency
descending) and `slice(0, 3)`. -/
def selectEligibleProducts (st : Store) (now : Int) (email : String) :
    List BrowseEvent :=
  ((latestPerProduct (rowsFor st now email)).insertionSort
    (fun a b => b.viewed_at ≤ a.viewed_at)).take 3

/-- Subject line of the browse-abandonment email
(`Still thinking about ...?` with the top product name). -/
def browseSubject (p : BrowseEvent) : String :=
  "Still thinking about " ++ p.product_name.getD "" ++ "?"

/-- Body of the browse-track loop for one selected email: test-mode skip,
fetch the eligible products from the current store, skip when empty, else
attempt delivery; on success flip `email_sent = TRUE` for every row
`WHERE customer_email = $1 AND email_sent = FALSE` and append one
`email_log` row referencing the top product. -/
def processBrowseCandidate (cfg : Config) (deliver : String → Bool) (now : Int)
    (st : Store) (email : String) : Store :=
  if restrictedSkip cfg email then st
  else
    match (selectEligibleProducts st now email).head? with
    | none => st
    | some top =>
      if sendEmailViaMailerLite cfg deliver email then
        { st with
          browse_events := st.browse_events.map (fun b =>
            if b.customer_email == some email && !b.email_sent then
              { b with email_sent := true }
            else b),
          email_log := st.email_log ++
            [{ email_type := "browse_abandonment", recipient_email := email,
               subject := some (browseSubject top), cart_id := none,
               product_id := some top.product_id, sent_at := now }] }
      else st

/-- `processBrowseAbandonment`: one scan run over the selected snapshot. -/
def processBrowseAbandonment (cfg : Config) (deliver : String → Bool)
    (now : Int) (st : Store) : Store :=
  (browseSelectedEmails st now).foldl (processBrowseCandidate cfg deliver now) st

/-- The most-recently-updated cart of a list (first among ties). -/
def mostRecentlyUpdated : List Cart → Option Cart
  | [] => none
  | c :: cs =>
    match mostRecentlyUpdated cs with
    | none => some c
    | some m => if m.updated_at ≤ c.updated_at then some c else some m

/-- Modelled from the spec: `findCartIdentifierWithoutEmailRecent` appears
in no source file of the repository (only §4.1 of the design document
describes it).  Per the spec it returns the identifier of the single
most-recently-updated non-converted cart lacking an email that was updated
within `windowMinutes`, and "none" when no cart matches. -/
def findCartIdentifierWithoutEmailRecent (st : Store) (now : Int)
    (windowMinutes : Int) : Option String :=
  (mostRecentlyUpdated (st.carts.filter (fun c =>
    !c.converted && !(emailPresent c.customer_email) &&
      decide (c.updated_at > now - windowMinutes * 60)))).map
    (fun c => c.cart_id)

/-- Modelled from the spec: the out-of-band association step that attaches
an email learned from a tracking call to the cart identifier returned by
`findCartIdentifierWithoutEmailRecent`; absent from the source files. -/
def associateCartEmail (st : Store) (cartId : String) (email : String) :
    Store :=
  { st with
    carts := st.carts.map (fun c =>
      if c.cart_id == cartId then { c with customer_email := some email } else c) }

/-- The mutating operations of the service, for invariant statements. -/
inductive Op : Type
  | upsert (now : Int) (freshId : Nat) (cartId : String) (email : Option String)
      (custId : Option Int) (cdata : CartData) (ctotal : Int)
  | convert (now : Int) (cartId : String)
  | view (now : Int) (freshId : Nat) (sessionId : Option String)
      (email : Option String) (productId : Int) (name : Option String)
      (url : Option String) (image : Option String) (price : Int)
  | cartScan (cfg : Config) (deliver : String → Bool) (now : Int)
  | browseScan (cfg : Config) (deliver : String → Bool) (now : Int)

/-- Application of one operation to the store. -/
def applyOp (st : Store) : Op → Store
  | Op.upsert now freshId cartId email custId cdata ctotal =>
    upsertCart st now freshId cartId email custId cdata ctotal
  | Op.convert now cartId => markConverted st now cartId
  | Op.view now freshId sessionId email productId name url image price =>
    recordView st now freshId sessionId email productId name url image price
  | Op.cartScan cfg deliver now => processAbandonedCarts cfg deliver now st
  | Op.browseScan cfg deliver now => processBrowseAbandonment cfg deliver now st

/-- Monotonicity of the terminal flags between a cart row and its successor
row with the same identifier. -/
def CartMono (c c' : Cart) : Prop :=
  c'.cart_id = c.cart_id ∧
  (c.converted = true → c'.converted = true) ∧
  (c.email_sent_1 = true → c'.email_sent_1 = true) ∧
  (c.email_sent_2 = true → c'.email_sent_2 = true) ∧
  (c.email_sent_3 = true → c'.email_sent_3 = true)

/-! ### Concrete example data, used by the closed witness statements -/

/-- Example line item. -/
def exItem : LineItem :=
  { name := some "Widget Pattern", image_url := some "img", url := some "u",
    sale_price := some 10, list_price := some 12 }

/-- Example cart snapshot. -/
def exData : CartData :=
  { physical_items := [exItem], digital_items := [], custom_items := [] }

/-- Example cart row eligible for the cart-track scan at time 10000. -/
def exCartW : Cart :=
  { id := 1, cart_id := "CW", customer_email := some "z@x.com",
    customer_id := some 7, cart_data := exData, cart_total := 10,
    created_at := 0, updated_at := 100, converted := false,
    email_sent_1 := false, email_sent_2 := false, email_sent_3 := false }

/-- Example store with one eligible cart. -/
def stW : Store := { carts := [exCartW], browse_events := [], email_log := [] }

/-- Example non-converted cart lacking an email, updated 20 minutes before
time 10000. -/
def exCartNoEmail : Cart :=
  { id := 2, cart_id := "C1", customer_email := none, customer_id := none,
    cart_data := exData, cart_total := 5, created_at := 8800,
    updated_at := 8800, converted := false, email_sent_1 := false,
    email_sent_2 := false, email_sent_3 := false }

/-- Example store for the email-association scenario. -/
def stC9 : Store := { carts := [exCartNoEmail], browse_events := [], email_log := [] }

/-- Example browse event old enough to be eligible at time 10000. -/
def bOld : BrowseEvent :=
  { id := 1, session_id := some "s", customer_email := some "e@x.com",
    product_id := 11, product_name := some "P1", product_url := some "u1",
    product_image := some "i1", product_price := 9, viewed_at := 0,
    added_to_cart := false, email_sent := false }

/-- Example browse event viewed only 1000 seconds before time 10000 (inside
the 2-hour dwell window, hence not eligible). -/
def bRecent : BrowseEvent :=
  { id := 2, session_id := some "s", customer_email := some "e@x.com",
    product_id := 12, product_name := some "P2", product_url := some "u2",
    product_image := some "i2", product_price := 9, viewed_at := 9000,
    added_to_cart := false, email_sent := false }

/-- Example store with one eligible and one too-recent view for one email. -/
def stC2 : Store := { carts := [], browse_events := [bOld, bRecent], email_log := [] }

/-- Example eligible browse event whose product image is the empty string. -/
def bNoImage : BrowseEvent :=
  { id := 3, session_id := some "s", customer_email := some "v@x.com",
    product_id := 21, product_name := some "P3", product_url := some "u3",
    product_image := some "", product_price := 9, viewed_at := 0,
    added_to_cart := false, email_sent := false }

/-- Example store holding only the image-less eligible view. -/
def stC7 : Store := { carts := [], browse_events := [bNoImage], email_log := [] }

/-- Example non-converted cart for `e@x.com` updated 10 minutes before
time 10000 (inside the 24-hour recency window). -/
def exBlockingCart : Cart :=
  { id := 3, cart_id := "CB", customer_email := some "e@x.com",
    customer_id := none, cart_data := exData, cart_total := 5,
    created_at := 9400, updated_at := 9400, converted := false,
    email_sent_1 := false, email_sent_2 := false, email_sent_3 := false }

/-- Example store where the blocking cart suppresses the browse track. -/
def stB1 : Store := { carts := [exBlockingCart], browse_events := [bOld], email_log := [] }

/-- Example cart row with the non-allow-listed email `y@x.com`. -/
def exCartY : Cart :=
  { id := 4, cart_id := "CY", customer_email := some "y@x.com",
    customer_id := none, cart_data := exData, cart_total := 5,
    created_at := 0, updated_at := 100, converted := false,
    email_sent_1 := false, email_sent_2 := false, email_sent_3 := false }

/-- Configuration with test mode off. -/
def cfgOff : Config := { test_mode := false, test_email := "" }

/-- Configuration with test mode on and allow-list `z@x.com`. -/
def cfgT : Config := { test_mode := true, test_email := "z@x.com" }

/-- Delivery oracle that always succeeds. -/
def deliverAll : String → Bool := fun _ => true

/-- Delivery oracle that always fails. -/
def deliverNone : String → Bool := fun _ => false

end AbandonedCart

namespace AbandonedCart

/-! ### Helper lemmas -/

theorem mem_foldl_dedup (l : List String) :
    ∀ (acc : List String) (e : String),
      e ∈ l.foldl (fun acc x => if x ∈ acc then acc else acc ++ [x]) acc ↔
        e ∈ acc ∨ e ∈ l := by
  induction l with
  | nil => intro acc e; simp
  | cons x xs ih =>
    intro acc e
    simp only [List.foldl_cons]
    rw [ih]
    by_cases hx : x ∈ acc
    · simp only [if_pos hx, List.mem_cons]
      constructor
      · rintro (h | h)
        · exact Or.inl h
        · exact Or.inr (Or.inr h)
      · rintro (h | rfl | h)
        · exact Or.inl h
        · exact Or.inl hx
        · exact Or.inr h
    · simp only [if_neg hx, List.mem_append, List.mem_singleton, List.mem_cons]
      tauto

theorem mem_dedupFirst {l : List String} {e : String} :
    e ∈ dedupFirst l ↔ e ∈ l := by
  unfold dedupFirst
  rw [mem_foldl_dedup]
  simp

theorem argmaxViewed_eq_none {l : List BrowseEvent} :
    argmaxViewed l = none ↔ l = [] := by
  cases l with
  | nil => simp [argmaxViewed]
  | cons b bs =>
    simp only [argmaxViewed]
    cases argmaxViewed bs with
    | none => simp
    | some m =>
      by_cases h : m.viewed_at ≤ b.viewed_at <;> simp [h]

theorem argmaxViewed_spec :
    ∀ {l : List BrowseEvent} {m : BrowseEvent}, argmaxViewed l = some m →
      m ∈ l ∧ ∀ b ∈ l, b.viewed_at ≤ m.viewed_at := by
  intro l
  induction l with
  | nil => intro m h; simp [argmaxViewed] at h
  | cons b bs ih =>
    intro m h
    cases hbs : argmaxViewed bs with
    | none =>
      have hnil : bs = [] := argmaxViewed_eq_none.mp hbs
      subst hnil
      simp only [argmaxViewed] at h
      have hbm : b = m := Option.some.inj h
      subst hbm
      refine ⟨List.mem_singleton_self _, ?_⟩
      intro x hx
      rcases List.mem_singleton.1 hx with rfl
      exact le_refl _
    | some mm =>
      simp only [argmaxViewed, hbs] at h
      obtain ⟨hmem, hmax⟩ := ih hbs
      by_cases hle : mm.viewed_at ≤ b.viewed_at
      · rw [if_pos hle] at h
        have hbm : b = m := Option.some.inj h
        subst hbm
        refine ⟨List.mem_cons_self _ _, ?_⟩
        intro x hx
        rcases List.mem_cons.1 hx with rfl | hx
        · exact le_refl _
        · exact le_trans (hmax x hx) hle
      · rw [if_neg hle] at h
        have hbm : mm = m := Option.some.inj h
        subst hbm
        refine ⟨List.mem_cons_of_mem _ hmem, ?_⟩
        intro x hx
        rcases List.mem_cons.1 hx with rfl | hx
        · exact le_of_lt (lt_of_not_le hle)
        · exact hmax x hx

theorem mostRecentlyUpdated_eq_none {l : List Cart} :
    mostRecentlyUpdated l = none ↔ l = [] := by
  cases l with
  | nil => simp [mostRecentlyUpdated]
  | cons c cs =>
    simp only [mostRecentlyUpdated]
    cases mostRecentlyUpdated cs with
    | none => simp
    | some m =>
      by_cases h : m.updated_at ≤ c.updated_at <;> simp [h]

theorem mostRecentlyUpdated_spec :
    ∀ {l : List Cart} {m : Cart}, mostRecentlyUpdated l = some m →
      m ∈ l ∧ ∀ c ∈ l, c.updated_at ≤ m.updated_at := by
  intro l
  induction l with
  | nil => intro m h; simp [mostRecentlyUpdated] at h
  | cons c cs ih =>
    intro m h
    cases hcs : mostRecentlyUpdated cs with
    | none =>
      have hnil : cs = [] := mostRecentlyUpdated_eq_none.mp hcs
      subst hnil
      simp only [mostRecentlyUpdated] at h
      have hcm : c = m := Option.some.inj h
      subst hcm
      refine ⟨List.mem_singleton_self _, ?_⟩
      intro x hx
      rcases List.mem_singleton.1 hx with rfl
      exact le_refl _
    | some mm =>
      simp only [mostRecentlyUpdated, hcs] at h
      obtain ⟨hmem, hmax⟩ := ih hcs
      by_cases hle : mm.updated_at ≤ c.updated_at
      · rw [if_pos hle] at h
        have hcm : c = m := Option.some.inj h
        subst hcm
        refine ⟨List.mem_cons_self _ _, ?_⟩
        intro x hx
        rcases List.mem_cons.1 hx with rfl | hx
        · exact le_refl _
        · exact le_trans (hmax x hx) hle
      · rw [if_neg hle] at h
        have hcm : mm = m := Option.some.inj h
        subst hcm
        refine ⟨List.mem_cons_of_mem _ hmem, ?_⟩
        intro x hx
        rcases List.mem_cons.1 hx with rfl | hx
        · exact le_of_lt (lt_of_not_le hle)
        · exact hmax x hx

theorem conflictUpdate_cart_id (now : Int) (cartId : String)
    (email : Option String) (custId : Option Int) (cdata : CartData)
    (ctotal : Int) (c : Cart) :
    (conflictUpdate now cartId email custId cdata ctotal c).cart_id = c.cart_id := by
  unfold conflictUpdate
  split <;> rfl

theorem filter_cartId_singleton :
    ∀ {l : List Cart}, l.Pairwise (fun a b => a.cart_id ≠ b.cart_id) →
      ∀ {c0 : Cart}, c0 ∈ l → ∀ {cartId : String}, c0.cart_id = cartId →
        l.filter (fun c => c.cart_id == cartId) = [c0] := by
  intro l
  induction l with
  | nil => intro _ c0 h0; cases h0
  | cons a as ih =>
    intro huniq c0 h0 cartId hid
    obtain ⟨ha, htail⟩ := List.pairwise_cons.1 huniq
    rcases List.mem_cons.1 h0 with rfl | h0'
    · rw [List.filter_cons, if_pos (by simp [hid])]
      have : as.filter (fun c => c.cart_id == cartId) = [] := by
        rw [List.filter_eq_nil_iff]
        intro c hc
        have := ha c hc
        simp only [beq_iff_eq]
        rw [hid] at this
        exact fun hcc => this hcc.symm
      rw [this]
    · rw [List.filter_cons, if_neg ?_]
      · exact ih htail h0' hid
      · have := ha c0 h0'
        simp only [beq_iff_eq]
        rw [hid] at this
        exact this

/-! ### Claims -/

/-- C3: the cart upsert creates exactly one fresh row (with `converted`
false and all three notified flags false) when no row has the identifier;
when a row exists it leaves exactly one row for the identifier, replacing
`cart_data` / `cart_total` / `updated_at` unconditionally and overwriting
`customer_email` / `customer_id` only by a non-null incoming value. -/
theorem upsertCart_spec (st : Store) (now : Int) (freshId : Nat)
    (cartId : String) (email : Option String) (custId : Option Int)
    (cdata : CartData) (ctotal : Int)
    (huniq : st.carts.Pairwise (fun a b => a.cart_id ≠ b.cart_id)) :
    ((∀ c ∈ st.carts, c.cart_id ≠ cartId) →
      (upsertCart st now freshId cartId email custId cdata ctotal).carts.filter
          (fun c => c.cart_id == cartId) =
        [newCartRow now freshId cartId email custId cdata ctotal] ∧
      (newCartRow now freshId cartId email custId cdata ctotal).converted = false ∧
      (newCartRow now freshId cartId email custId cdata ctotal).email_sent_1 = false ∧
      (newCartRow now freshId cartId email custId cdata ctotal).email_sent_2 = false ∧
      (newCartRow now freshId cartId email custId cdata ctotal).email_sent_3 = false ∧
      (newCartRow now freshId cartId email custId cdata ctotal).customer_email = email ∧
      (newCartRow now freshId cartId email custId cdata ctotal).cart_data = cdata) ∧
    (∀ c0 ∈ st.carts, c0.cart_id = cartId →
      (upsertCart st now freshId cartId email custId cdata ctotal).carts.filter
          (fun c => c.cart_id == cartId) =
        [conflictUpdate now cartId email custId cdata ctotal c0] ∧
      (conflictUpdate now cartId email custId cdata ctotal c0).cart_data = cdata ∧
      (conflictUpdate now cartId email custId cdata ctotal c0).cart_total = ctotal ∧
      (conflictUpdate now cartId email custId cdata ctotal c0).updated_at = now ∧
      (∀ v, email = some v →
        (conflictUpdate now cartId email custId cdata ctotal c0).customer_email = some v) ∧
      (email = none →
        (conflictUpdate now cartId email custId cdata ctotal c0).customer_email =
          c0.customer_email) ∧
      (∀ v, custId = some v →
        (conflictUpdate now cartId email custId cdata ctotal c0).customer_id = some v) ∧
      (custId = none →
        (conflictUpdate now cartId email custId cdata ctotal c0).customer_id =
          c0.customer_id)) := by
  constructor
  · intro hnone
    have hany : st.carts.any (fun c => c.cart_id == cartId) = false := by
      rw [List.any_eq_false]
      intro c hc
      simp only [beq_iff_eq]
      exact hnone c hc
    have hcarts :
        (upsertCart st now freshId cartId email custId cdata ctotal).carts =
          st.carts ++ [newCartRow now freshId cartId email custId cdata ctotal] := by
      unfold upsertCart
      rw [hany]
      simp
    rw [hcarts, List.filter_append]
    have h1 : st.carts.filter (fun c => c.cart_id == cartId) = [] := by
      rw [List.filter_eq_nil_iff]
      intro c hc
      simp only [beq_iff_eq]
      exact hnone c hc
    rw [h1]
    refine ⟨?_, rfl, rfl, rfl, rfl, rfl, rfl⟩
    simp [newCartRow]
  · intro c0 h0 hid
    have hany : st.carts.any (fun c => c.cart_id == cartId) = true := by
      rw [List.any_eq_true]
      exact ⟨c0, h0, by simp [hid]⟩
    have hcarts :
        (upsertCart st now freshId cartId email custId cdata ctotal).carts =
          st.carts.map (conflictUpdate now cartId email custId cdata ctotal) := by
      unfold upsertCart
      rw [hany]
      simp
    rw [hcarts]
    have hfil :
        (st.carts.map (conflictUpdate now cartId email custId cdata ctotal)).filter
            (fun c => c.cart_id == cartId) =
          (st.carts.filter (fun c => c.cart_id == cartId)).map
            (conflictUpdate now cartId email custId cdata ctotal) := by
      rw [List.filter_map]
      congr 1
      apply List.filter_congr
      intro c _
      simp [Function.comp, conflictUpdate_cart_id]
    rw [hfil, filter_cartId_singleton huniq h0 hid, List.map_singleton]
    have hbeq : (c0.cart_id == cartId) = true := by simp [hid]
    refine ⟨rfl, ?_, ?_, ?_, ?_, ?_, ?_, ?_⟩ <;>
      simp [conflictUpdate, hbeq, sqlCoalesce]
    · intro v hv; rw [hv]
    · intro hv; rw [hv]
    · intro v hv; rw [hv]
    · intro hv; rw [hv]

/-- C3 witness: applying the upsert theorem at a concrete store, once on a
fresh identifier and once on the existing identifier. -/
theorem upsertCart_spec_witness :
    ((upsertCart stW 20000 9 "NEW" (some "b@x.com") none exData 3).carts.filter
        (fun c => c.cart_id == "NEW") =
      [newCartRow 20000 9 "NEW" (some "b@x.com") none exData 3]) ∧
    ((upsertCart stW 20000 9 "CW" none none exData 3).carts.filter
        (fun c => c.cart_id == "CW") =
      [conflictUpdate 20000 "CW" none none exData 3 exCartW] ∧
      (conflictUpdate 20000 "CW" none none exData 3 exCartW).customer_email =
        exCartW.customer_email) := by
  constructor
  · exact ((upsertCart_spec stW 20000 9 "NEW" (some "b@x.com") none exData 3
      (by decide)).1 (by decide)).1
  · have h := (upsertCart_spec stW 20000 9 "CW" none none exData 3
      (by decide)).2 exCartW (by decide) (by decide)
    exact ⟨h.1, h.2.2.2.2.2.1 rfl⟩

/-- C10: when a row already exists for the identifier, the upsert only
rewrites `customer_email`, `customer_id`, `cart_data`, `cart_total` and
`updated_at` of the conflicting row; `id`, `cart_id`, `created_at`,
`converted` and the three `email_sent_k` flags of every row are untouched,
rows with a different identifier are untouched entirely, and the other two
tables are untouched. -/
theorem upsert_conflict_frame (st : Store) (now : Int) (freshId : Nat)
    (cartId : String) (email : Option String) (custId : Option Int)
    (cdata : CartData) (ctotal : Int)
    (hexists : ∃ c0 ∈ st.carts, c0.cart_id = cartId) :
    ((upsertCart st now freshId cartId email custId cdata ctotal).carts =
      st.carts.map (conflictUpdate now cartId email custId cdata ctotal)) ∧
    (∀ c : Cart,
      (conflictUpdate now cartId email custId cdata ctotal c).id = c.id ∧
      (conflictUpdate now cartId email custId cdata ctotal c).cart_id = c.cart_id ∧
      (conflictUpdate now cartId email custId cdata ctotal c).created_at = c.created_at ∧
      (conflictUpdate now cartId email custId cdata ctotal c).converted = c.converted ∧
      (conflictUpdate now cartId email custId cdata ctotal c).email_sent_1 = c.email_sent_1 ∧
      (conflictUpdate now cartId email custId cdata ctotal c).email_sent_2 = c.email_sent_2 ∧
      (conflictUpdate now cartId email custId cdata ctotal c).email_sent_3 = c.email_sent_3 ∧
      (c.cart_id ≠ cartId → conflictUpdate now cartId email custId cdata ctotal c = c)) ∧
    (upsertCart st now freshId cartId email custId cdata ctotal).browse_events =
      st.browse_events ∧
    (upsertCart st now freshId cartId email custId cdata ctotal).email_log =
      st.email_log := by
  obtain ⟨c0, h0, hid⟩ := hexists
  have hany : st.carts.any (fun c => c.cart_id == cartId) = true := by
    rw [List.any_eq_true]
    exact ⟨c0, h0, by simp [hid]⟩
  have hbranch :
      upsertCart st now freshId cartId email custId cdata ctotal =
        { st with carts := st.carts.map (conflictUpdate now cartId email custId cdata ctotal) } := by
    unfold upsertCart
    rw [hany]
    simp
  refine ⟨by rw [hbranch], ?_, by rw [hbranch], by rw [hbranch]⟩
  intro c
  by_cases hc : c.cart_id == cartId
  · refine ⟨?_, ?_, ?_, ?_, ?_, ?_, ?_, ?_⟩ <;>
      simp [conflictUpdate, hc]
    intro habs
    exact absurd (by simpa using hc) habs
  · refine ⟨?_, ?_, ?_, ?_, ?_, ?_, ?_, ?_⟩ <;>
      simp [conflictUpdate, hc]

theorem mem_selectAbandonedCarts {st : Store} {now : Int} {c : Cart} :
    c ∈ selectAbandonedCarts st now → c ∈ st.carts ∧ cartEligible now c = true := by
  intro h
  unfold selectAbandonedCarts at h
  have h2 := List.mem_of_mem_take h
  rw [List.mem_insertionSort] at h2
  exact ⟨(List.mem_filter.1 h2).1, (List.mem_filter.1 h2).2⟩

theorem selectAbandonedCarts_complete {st : Store} {now : Int} {c : Cart}
    (hc : c ∈ st.carts) (he : cartEligible now c = true)
    (hlen : (st.carts.filter (cartEligible now)).length ≤ 10) :
    c ∈ selectAbandonedCarts st now := by
  unfold selectAbandonedCarts
  have hmem : c ∈ st.carts.filter (cartEligible now) := List.mem_filter.2 ⟨hc, he⟩
  have hlen2 : ((st.carts.filter (cartEligible now)).insertionSort
      (fun a b => a.updated_at ≤ b.updated_at)).length ≤ 10 := by
    rw [List.length_insertionSort]
    exact hlen
  rw [List.take_of_length_le hlen2, List.mem_insertionSort]
  exact hmem

theorem sorted_selectAbandonedCarts (st : Store) (now : Int) :
    List.Sorted (fun a b : Cart => a.updated_at ≤ b.updated_at)
      (selectAbandonedCarts st now) := by
  unfold selectAbandonedCarts
  haveI : IsTotal Cart (fun a b : Cart => a.updated_at ≤ b.updated_at) :=
    ⟨fun a b => le_total a.updated_at b.updated_at⟩
  haveI : IsTrans Cart (fun a b : Cart => a.updated_at ≤ b.updated_at) :=
    ⟨fun _ _ _ hab hbc => le_trans hab hbc⟩
  exact List.Pairwise.sublist (List.take_sublist _ _) (List.sorted_insertionSort _ _)

/-- C5: the cart-track scan selects exactly the carts with a present email,
`converted = false`, `email_sent_1 = false` and `updated_at` older than one
hour (completeness holding whenever the eligible set fits the batch cap),
processes them oldest-updated-first, and caps the batch at 10. -/
theorem cart_scan_selection (st : Store) (now : Int) :
    (∀ c ∈ selectAbandonedCarts st now,
      c ∈ st.carts ∧ emailPresent c.customer_email = true ∧ c.converted = false ∧
      c.email_sent_1 = false ∧ c.updated_at < now - 3600) ∧
    List.Sorted (fun a b : Cart => a.updated_at ≤ b.updated_at)
      (selectAbandonedCarts st now) ∧
    (selectAbandonedCarts st now).length ≤ 10 ∧
    (∀ c ∈ st.carts, emailPresent c.customer_email = true → c.converted = false →
      c.email_sent_1 = false → c.updated_at < now - 3600 →
      (st.carts.filter (cartEligible now)).length ≤ 10 →
      c ∈ selectAbandonedCarts st now) := by
  refine ⟨?_, sorted_selectAbandonedCarts st now, ?_, ?_⟩
  · intro c hc
    obtain ⟨hm, he⟩ := mem_selectAbandonedCarts hc
    simp only [cartEligible, Bool.and_eq_true, Bool.not_eq_true',
      decide_eq_true_eq] at he
    exact ⟨hm, he.1.1.1, he.1.1.2, he.1.2, he.2⟩
  · unfold selectAbandonedCarts
    exact List.length_take_le 10 _
  · intro c hc h1 h2 h3 h4 hlen
    refine selectAbandonedCarts_complete hc ?_ hlen
    simp [cartEligible, h1, h2, h3, h4]

/-- C5 witness: the concrete eligible cart is selected by the scan at time
10000 and the batch is within the cap. -/
theorem cart_scan_selection_witness :
    exCartW ∈ selectAbandonedCarts stW 10000 ∧
    (selectAbandonedCarts stW 10000).length ≤ 10 := by
  have h := cart_scan_selection stW 10000
  exact ⟨h.2.2.2 exCartW (by decide) (by decide) (by decide) (by decide)
    (by decide) (by decide), h.2.2.1⟩

/-- C6: for a scan candidate, successful delivery sets the stage-1 flag of
that row and appends exactly one `email_log` entry; failed delivery leaves
the whole store unchanged, the loop simply continues with the remaining
candidates, and the still-unflagged cart is selected again by any later
scan at which it is eligible and the eligible set fits the batch cap. -/
theorem cart_failure_retry (cfg : Config) (deliver : String → Bool)
    (now now2 : Int) (st : Store) (c : Cart) (e : String)
    (he : c.customer_email = some e) (hallow : restrictedSkip cfg e = false) :
    (deliver e = true →
      processCartCandidate cfg deliver now st c =
        { st with
          carts := st.carts.map (fun r =>
            if r.id == c.id then { r with email_sent_1 := true } else r),
          email_log := st.email_log ++
            [{ email_type := "abandoned_cart_1", recipient_email := e,
               subject := some (cartSubject c.cart_data),
               cart_id := some c.cart_id, product_id := none, sent_at := now }] }) ∧
    (deliver e = false →
      processCartCandidate cfg deliver now st c = st ∧
      (∀ rest : List Cart,
        (c :: rest).foldl (processCartCandidate cfg deliver now) st =
          rest.foldl (processCartCandidate cfg deliver now) st) ∧
      (c ∈ st.carts → c.converted = false → c.email_sent_1 = false →
        emailPresent c.customer_email = true → c.updated_at < now2 - 3600 →
        (st.carts.filter (cartEligible now2)).length ≤ 10 →
        c ∈ selectAbandonedCarts st now2)) := by
  have hsend : sendEmailViaMailerLite cfg deliver e = deliver e := by
    unfold sendEmailViaMailerLite
    rw [hallow]
    simp
  constructor
  · intro hd
    unfold processCartCandidate
    rw [he]
    simp only [hallow, hsend, hd, Bool.false_eq_true, if_false, if_true]
  · intro hd
    have hproc : processCartCandidate cfg deliver now st c = st := by
      unfold processCartCandidate
      rw [he]
      simp [hallow, hsend, hd]
    refine ⟨hproc, ?_, ?_⟩
    · intro rest
      simp [List.foldl_cons, hproc]
    · intro hc h1 h2 h3 h4 hlen
      refine selectAbandonedCarts_complete hc ?_ hlen
      simp [cartEligible, h1, h2, h3, h4]

/-- C6 witness: at the concrete store, failed delivery leaves the store
unchanged and the cart is still selected; successful delivery appends one
log entry. -/
theorem cart_failure_retry_witness :
    processCartCandidate cfgOff deliverNone 10000 stW exCartW = stW ∧
    exCartW ∈ selectAbandonedCarts stW 10000 ∧
    (processCartCandidate cfgOff deliverAll 10000 stW exCartW).email_log.length =
      stW.email_log.length + 1 := by
  have hf := (cart_failure_retry cfgOff deliverNone 10000 10000 stW exCartW
    "z@x.com" (by decide) (by decide)).2 (by decide)
  have hs := (cart_failure_retry cfgOff deliverAll 10000 10000 stW exCartW
    "z@x.com" (by decide) (by decide)).1 (by decide)
  refine ⟨hf.1, ?_, ?_⟩
  · exact hf.2.2 (by decide) (by decide) (by decide) (by decide) (by decide)
      (by decide)
  · rw [hs]
    simp

/-- C8: with test mode on, a candidate whose email does not match the
allow-listed address case-insensitively is skipped with no state change at
all in either track — and the scan loops simply continue — while a
candidate whose email does match behaves exactly as with test mode off. -/
theorem restricted_mode_gate (cfg : Config) (deliver : String → Bool)
    (now : Int) (st : Store) (c : Cart) (e : String)
    (hmode : cfg.test_mode = true) (hc : c.customer_email = some e) :
    (lowerStr e ≠ lowerStr cfg.test_email →
      processCartCandidate cfg deliver now st c = st ∧
      processBrowseCandidate cfg deliver now st e = st ∧
      sendEmailViaMailerLite cfg deliver e = false ∧
      (∀ rest : List Cart,
        (c :: rest).foldl (processCartCandidate cfg deliver now) st =
          rest.foldl (processCartCandidate cfg deliver now) st) ∧
      (∀ rest : List String,
        (e :: rest).foldl (processBrowseCandidate cfg deliver now) st =
          rest.foldl (processBrowseCandidate cfg deliver now) st)) ∧
    (lowerStr e = lowerStr cfg.test_email →
      processCartCandidate cfg deliver now st c =
        processCartCandidate { test_mode := false, test_email := cfg.test_email }
          deliver now st c ∧
      processBrowseCandidate cfg deliver now st e =
        processBrowseCandidate { test_mode := false, test_email := cfg.test_email }
          deliver now st e) := by
  constructor
  · intro hne
    have hskip : restrictedSkip cfg e = true := by
      simp [restrictedSkip, hmode, hne]
    have hcart : processCartCandidate cfg deliver now st c = st := by
      unfold processCartCandidate
      rw [hc]
      simp [hskip]
    have hbrowse : processBrowseCandidate cfg deliver now st e = st := by
      unfold processBrowseCandidate
      simp [hskip]
    refine ⟨hcart, hbrowse, ?_, ?_, ?_⟩
    · unfold sendEmailViaMailerLite
      simp [hskip]
    · intro rest
      simp [List.foldl_cons, hcart]
    · intro rest
      simp [List.foldl_cons, hbrowse]
  · intro heq
    have hskip : restrictedSkip cfg e = false := by
      simp [restrictedSkip, heq]
    have hskip2 : restrictedSkip { test_mode := false, test_email := cfg.test_email } e = false := by
      simp [restrictedSkip]
    have hsend : sendEmailViaMailerLite cfg deliver e =
        sendEmailViaMailerLite { test_mode := false, test_email := cfg.test_email } deliver e := by
      unfold sendEmailViaMailerLite
      rw [hskip, hskip2]
    constructor
    · unfold processCartCandidate
      rw [hc]
      simp only [hskip, hskip2, hsend, Bool.false_eq_true, if_false]
    · unfold processBrowseCandidate
      simp only [hskip, hskip2, hsend, Bool.false_eq_true, if_false]

/-- C8 witness: with allow-list `z@x.com`, the candidate `y@x.com` is
skipped without any state change, and the differently-cased `Z@X.com`
behaves exactly as with test mode off. -/
theorem restricted_mode_gate_witness :
    processBrowseCandidate cfgT deliverAll 10000 stC2 "y@x.com" = stC2 ∧
    processCartCandidate cfgT deliverAll 10000 stW exCartW =
      processCartCandidate { test_mode := false, test_email := cfgT.test_email }
        deliverAll 10000 stW exCartW := by
  constructor
  · exact ((restricted_mode_gate cfgT deliverAll 10000 stC2 exCartY "y@x.com"
      (by decide) (by decide)).1 (by decide)).2.1
  · exact ((restricted_mode_gate cfgT deliverAll 10000 stW exCartW "z@x.com"
      (by decide) (by decide)).2 (by decide)).1

/-- C1: the browse track never selects an email while a non-converted cart
for that email was updated within the last 24 hours, and (for a non-empty
email with an eligible un-notified old view) it selects the email again
once every such cart is converted or was last updated at least 24 hours
ago, whenever the qualifying set fits the batch cap. -/
theorem browse_mutual_exclusion (st : Store) (now : Int) (e : String) :
    ((∃ c ∈ st.carts, c.customer_email = some e ∧ c.converted = false ∧
        now - 86400 < c.updated_at) →
      e ∉ browseSelectedEmails st now) ∧
    ((∀ c ∈ st.carts, c.customer_email = some e → c.converted = false →
        c.updated_at ≤ now - 86400) →
      e ≠ "" →
      (∃ b ∈ st.browse_events, b.customer_email = some e ∧ b.email_sent = false ∧
        b.viewed_at < now - 7200) →
      (browseQualifyingEmails st now).length ≤ 10 →
      e ∈ browseSelectedEmails st now) := by
  constructor
  · rintro ⟨c, hcmem, hce, hconv, hupd⟩ hmem
    unfold browseSelectedEmails at hmem
    have h1 : e ∈ browseQualifyingEmails st now := List.mem_of_mem_take hmem
    unfold browseQualifyingEmails at h1
    rw [mem_dedupFirst] at h1
    have hb : hasBlockingCart st now e = false := by
      have h2 := (List.mem_filter.1 h1).2
      simpa using h2
    have htrue : hasBlockingCart st now e = true := by
      unfold hasBlockingCart
      rw [List.any_eq_true]
      refine ⟨c, hcmem, ?_⟩
      simp [hce, hconv, hupd]
    rw [htrue] at hb
    cases hb
  · rintro hall hne ⟨b, hbmem, hbe, hbs, hbt⟩ hlen
    have hq : e ∈ browseQualifyingEmails st now := by
      unfold browseQualifyingEmails
      rw [mem_dedupFirst]
      refine List.mem_filter.2 ⟨?_, ?_⟩
      · rw [List.mem_filterMap]
        refine ⟨b, ?_, hbe⟩
        refine List.mem_filter.2 ⟨hbmem, ?_⟩
        simp [browseRowOk, hbe, hbs, hbt, emailPresent, hne]
      · simp only [Bool.not_eq_true']
        unfold hasBlockingCart
        rw [List.any_eq_false]
        intro c hc
        simp only [Bool.and_eq_true, beq_iff_eq, Bool.not_eq_true',
          decide_eq_true_eq, not_and, gt_iff_lt]
        intro h1 h2
        have := hall c hc h1.1 h1.2
        omega
    unfold browseSelectedEmails
    rw [List.take_of_length_le hlen]
    exact hq

/-- C1 witness: `e@x.com` is not selected at time 10000 while its cart was
updated 10 minutes earlier, and is selected in the store without any
blocking cart. -/
theorem browse_mutual_exclusion_witness :
    "e@x.com" ∉ browseSelectedEmails stB1 10000 ∧
    "e@x.com" ∈ browseSelectedEmails stC2 10000 := by
  constructor
  · exact (browse_mutual_exclusion stB1 10000 "e@x.com").1
      ⟨exBlockingCart, by decide, by decide, by decide, by decide⟩
  · exact (browse_mutual_exclusion stC2 10000 "e@x.com").2 (by decide)
      (by decide) ⟨bOld, by decide, by decide, by decide, by decide⟩ (by decide)

theorem pairwise_filterMap_of_pairwise {α β : Type} {R : α → α → Prop}
    {S : β → β → Prop} (f : α → Option β)
    (hf : ∀ a a' b b', f a = some b → f a' = some b' → R a a' → S b b') :
    ∀ {l : List α}, l.Pairwise R → (l.filterMap f).Pairwise S := by
  intro l
  induction l with
  | nil => intro _; simp
  | cons a as ih =>
    intro hp
    obtain ⟨ha, htail⟩ := List.pairwise_cons.1 hp
    rw [List.filterMap_cons]
    cases hfa : f a with
    | none => exact ih htail
    | some b =>
      rw [List.pairwise_cons]
      refine ⟨?_, ih htail⟩
      intro b' hb'
      rw [List.mem_filterMap] at hb'
      obtain ⟨a', ha', hfa'⟩ := hb'
      exact hf a a' b b' hfa hfa' (ha a' ha')

theorem mem_latestPerProduct {rows : List BrowseEvent} {p : BrowseEvent}
    (h : p ∈ latestPerProduct rows) :
    p ∈ rows ∧ ∀ b ∈ rows, b.product_id = p.product_id →
      b.viewed_at ≤ p.viewed_at := by
  unfold latestPerProduct at h
  rw [List.mem_filterMap] at h
  obtain ⟨pid, _, harg⟩ := h
  obtain ⟨hmem, hmax⟩ := argmaxViewed_spec harg
  have hpmem := List.mem_filter.1 hmem
  have hpp : p.product_id = pid := by simpa using hpmem.2
  refine ⟨hpmem.1, ?_⟩
  intro b hb hbp
  exact hmax b (List.mem_filter.2 ⟨hb, by simp [hbp, hpp]⟩)

theorem argmaxViewed_product_id {rows : List BrowseEvent} {pid : Int}
    {p : BrowseEvent}
    (h : argmaxViewed (rows.filter (fun b => b.product_id == pid)) = some p) :
    p.product_id = pid := by
  have hmem := (argmaxViewed_spec h).1
  have := (List.mem_filter.1 hmem).2
  simpa using this

theorem latestPerProduct_pairwise (rows : List BrowseEvent) :
    (latestPerProduct rows).Pairwise (fun a b => a.product_id ≠ b.product_id) := by
  unfold latestPerProduct
  refine pairwise_filterMap_of_pairwise _ ?_ (List.nodup_dedup _)
  intro a a' b b' hfa hfa' hR
  rw [argmaxViewed_product_id hfa, argmaxViewed_product_id hfa']
  exact hR

theorem mem_rowsFor {st : Store} {now : Int} {email : String} {b : BrowseEvent} :
    b ∈ rowsFor st now email ↔
      b ∈ st.browse_events ∧ b.customer_email = some email ∧
        b.email_sent = false ∧ b.viewed_at < now - 7200 := by
  unfold rowsFor browseRowFor
  constructor
  · intro h
    obtain ⟨h1, h2⟩ := List.mem_filter.1 h
    simp only [Bool.and_eq_true, beq_iff_eq, Bool.not_eq_true',
      decide_eq_true_eq] at h2
    exact ⟨h1, h2.1.1, h2.1.2, h2.2⟩
  · rintro ⟨h1, h2, h3, h4⟩
    exact List.mem_filter.2 ⟨h1, by simp [h2, h3, h4]⟩

theorem latestPerProduct_complete {rows : List BrowseEvent} {b : BrowseEvent}
    (hb : b ∈ rows) :
    ∃ p ∈ latestPerProduct rows, p.product_id = b.product_id := by
  have hpid : b.product_id ∈ (rows.map (fun x => x.product_id)).dedup := by
    rw [List.mem_dedup]
    exact List.mem_map.2 ⟨b, hb, rfl⟩
  cases harg : argmaxViewed (rows.filter (fun x => x.product_id == b.product_id)) with
  | none =>
    exfalso
    have hnil := argmaxViewed_eq_none.mp harg
    have : b ∈ rows.filter (fun x => x.product_id == b.product_id) :=
      List.mem_filter.2 ⟨hb, by simp⟩
    rw [hnil] at this
    cases this
  | some p =>
    refine ⟨p, ?_, argmaxViewed_product_id harg⟩
    unfold latestPerProduct
    rw [List.mem_filterMap]
    exact ⟨b.product_id, hpid, harg⟩

/-- C7 counterexample: the claim requires the selection to keep only rows
with a non-empty product image, but the per-email product query has no
image condition: at time 10000 the store holding a single otherwise
eligible row whose `product_image` is the empty string still returns that
row. -/
theorem eligible_products_image_cex :
    selectEligibleProducts stC7 10000 "v@x.com" = [bNoImage] ∧
    bNoImage.product_image = some "" ∧ bNoImage.email_sent = false ∧
    bNoImage.viewed_at < 10000 - 7200 := by
  refine ⟨by decide, rfl, rfl, by decide⟩

/-- C7 (amended): the eligible-product selection returns the most recent
view per distinct product among the rows of the email with
`email_sent = false` and view time older than the 2-hour cutoff — with no
restriction on the product image — ordered by recency descending and
capped at 3 (completeness holding whenever the distinct products fit the
cap). -/
theorem eligible_products_spec (st : Store) (now : Int) (email : String) :
    (selectEligibleProducts st now email).length ≤ 3 ∧
    (∀ p ∈ selectEligibleProducts st now email,
      p ∈ st.browse_events ∧ p.customer_email = some email ∧
      p.email_sent = false ∧ p.viewed_at < now - 7200 ∧
      ∀ b ∈ st.browse_events, b.customer_email = some email →
        b.email_sent = false → b.viewed_at < now - 7200 →
        b.product_id = p.product_id → b.viewed_at ≤ p.viewed_at) ∧
    List.Sorted (fun a b : BrowseEvent => b.viewed_at ≤ a.viewed_at)
      (selectEligibleProducts st now email) ∧
    (selectEligibleProducts st now email).Pairwise
      (fun a b => a.product_id ≠ b.product_id) ∧
    (∀ b ∈ st.browse_events, b.customer_email = some email →
      b.email_sent = false → b.viewed_at < now - 7200 →
      (latestPerProduct (rowsFor st now email)).length ≤ 3 →
      ∃ p ∈ selectEligibleProducts st now email,
        p.product_id = b.product_id) := by
  refine ⟨?_, ?_, ?_, ?_, ?_⟩
  · unfold selectEligibleProducts
    exact List.length_take_le 3 _
  · intro p hp
    have h2 := List.mem_of_mem_take hp
    rw [List.mem_insertionSort] at h2
    obtain ⟨hmem, hmax⟩ := mem_latestPerProduct h2
    obtain ⟨h1, h2', h3, h4⟩ := mem_rowsFor.1 hmem
    refine ⟨h1, h2', h3, h4, ?_⟩
    intro b hb hb1 hb2 hb3 hb4
    exact hmax b (mem_rowsFor.2 ⟨hb, hb1, hb2, hb3⟩) hb4
  · unfold selectEligibleProducts
    haveI : IsTotal BrowseEvent (fun a b : BrowseEvent => b.viewed_at ≤ a.viewed_at) :=
      ⟨fun a b => le_total b.viewed_at a.viewed_at⟩
    haveI : IsTrans BrowseEvent (fun a b : BrowseEvent => b.viewed_at ≤ a.viewed_at) :=
      ⟨fun _ _ _ hab hbc => le_trans hbc hab⟩
    exact List.Pairwise.sublist (List.take_sublist _ _)
      (List.sorted_insertionSort _ _)
  · unfold selectEligibleProducts
    refine List.Pairwise.sublist (List.take_sublist _ _) ?_
    refine ((List.perm_insertionSort _ _).pairwise_iff ?_).2
      (latestPerProduct_pairwise _)
    intro x y hxy
    exact hxy.symm
  · intro b hb hb1 hb2 hb3 hlen
    obtain ⟨p, hp, hpid⟩ :=
      latestPerProduct_complete (mem_rowsFor.2 ⟨hb, hb1, hb2, hb3⟩)
    refine ⟨p, ?_, hpid⟩
    unfold selectEligibleProducts
    have hlen2 : ((latestPerProduct (rowsFor st now email)).insertionSort
        (fun a b => b.viewed_at ≤ a.viewed_at)).length ≤ 3 := by
      rw [List.length_insertionSort]
      exact hlen
    rw [List.take_of_length_le hlen2, List.mem_insertionSort]
    exact hp

/-- C7 witness: applying the selection theorem at the concrete store with
one eligible and one too-recent view. -/
theorem eligible_products_spec_witness :
    (selectEligibleProducts stC2 10000 "e@x.com").length ≤ 3 ∧
    (∃ p ∈ selectEligibleProducts stC2 10000 "e@x.com",
      p.product_id = bOld.product_id) := by
  have h := eligible_products_spec stC2 10000 "e@x.com"
  exact ⟨h.1, h.2.2.2.2 bOld (by decide) (by decide) (by decide) (by decide)
    (by decide)⟩

/-- C2 counterexample: the success-path update flips `email_sent` for every
un-notified row of the email with no condition on `viewed_at`: at time
10000, notifying `e@x.com` also flags the row viewed at 9000, which was
not eligible (not older than the 2-hour cutoff). -/
theorem browse_batch_flag_cex :
    (processBrowseCandidate cfgOff deliverAll 10000 stC2 "e@x.com").browse_events =
      [{ bOld with email_sent := true }, { bRecent with email_sent := true }] ∧
    bRecent.email_sent = false ∧ ¬(bRecent.viewed_at < 10000 - 7200) := by
  refine ⟨by decide, rfl, by decide⟩

/-- C2 (amended): after a successful browse-abandonment notification for an
email, exactly the rows of that email that had `email_sent = false` —
regardless of their view time, so including rows newer than the 2-hour
cutoff as well as rows for products that did not make the top-3 cut — are
flipped to `email_sent = true` (every other row is unchanged), one
`email_log` entry referencing the top product is appended, and rows with
`email_sent = true` are never selected by any later browse-track scan. -/
theorem browse_batch_flag_spec (cfg : Config) (deliver : String → Bool)
    (now : Int) (st : Store) (email : String) (top : BrowseEvent)
    (hskip : restrictedSkip cfg email = false)
    (htop : (selectEligibleProducts st now email).head? = some top)
    (hd : deliver email = true) :
    (processBrowseCandidate cfg deliver now st email).browse_events =
      st.browse_events.map (fun b =>
        if b.customer_email == some email && !b.email_sent then
          { b with email_sent := true }
        else b) ∧
    (∀ b ∈ (processBrowseCandidate cfg deliver now st email).browse_events,
      b.customer_email = some email → b.email_sent = true) ∧
    (processBrowseCandidate cfg deliver now st email).email_log =
      st.email_log ++
        [{ email_type := "browse_abandonment", recipient_email := email,
           subject := some (browseSubject top), cart_id := none,
           product_id := some top.product_id, sent_at := now }] ∧
    (∀ (st2 : Store) (now2 : Int) (e2 : String),
      ∀ b ∈ selectEligibleProducts st2 now2 e2, b.email_sent = false) ∧
    (∀ (st2 : Store) (now2 : Int),
      ∀ b ∈ st2.browse_events.filter (browseRowOk now2), b.email_sent = false) := by
  have hsend : sendEmailViaMailerLite cfg deliver email = true := by
    unfold sendEmailViaMailerLite
    rw [hskip]
    simpa using hd
  have hres : processBrowseCandidate cfg deliver now st email =
      { st with
        browse_events := st.browse_events.map (fun b =>
          if b.customer_email == some email && !b.email_sent then
            { b with email_sent := true }
          else b),
        email_log := st.email_log ++
          [{ email_type := "browse_abandonment", recipient_email := email,
             subject := some (browseSubject top), cart_id := none,
             product_id := some top.product_id, sent_at := now }] } := by
    unfold processBrowseCandidate
    rw [htop]
    simp [hskip, hsend]
  refine ⟨by rw [hres], ?_, by rw [hres], ?_, ?_⟩
  · intro b hb hbe
    rw [hres] at hb
    obtain ⟨a, _, rfl⟩ := List.mem_map.1 hb
    by_cases hcond : (a.customer_email == some email && !a.email_sent) = true
    · simp [hcond]
    · rw [if_neg hcond] at hbe ⊢
      simp only [Bool.and_eq_true, Bool.not_eq_true'] at hcond
      rw [not_and] at hcond
      have := hcond (by simp [hbe])
      simpa using this
  · intro st2 now2 e2 b hb
    have h2 := List.mem_of_mem_take hb
    rw [List.mem_insertionSort] at h2
    exact (mem_rowsFor.1 (mem_latestPerProduct h2).1).2.2.1
  · intro st2 now2 b hb
    have h2 := (List.mem_filter.1 hb).2
    simp only [browseRowOk, Bool.and_eq_true, Bool.not_eq_true'] at h2
    exact h2.1.2

/-- C2 witness: applying the batch-flag theorem at the concrete store with
one eligible and one too-recent view for `e@x.com`. -/
theorem browse_batch_flag_spec_witness :
    (processBrowseCandidate cfgOff deliverAll 10000 stC2 "e@x.com").browse_events =
      stC2.browse_events.map (fun b =>
        if b.customer_email == some "e@x.com" && !b.email_sent then
          { b with email_sent := true }
        else b) ∧
    (processBrowseCandidate cfgOff deliverAll 10000 stC2 "e@x.com").email_log.length =
      stC2.email_log.length + 1 := by
  have h := browse_batch_flag_spec cfgOff deliverAll 10000 stC2 "e@x.com" bOld
    (by decide) (by decide) (by decide)
  refine ⟨h.1, ?_⟩
  rw [h.2.2.1]
  simp

theorem cartMono_refl (c : Cart) : CartMono c c :=
  ⟨rfl, id, id, id, id⟩

theorem cartMono_trans {a b c : Cart} (h1 : CartMono a b) (h2 : CartMono b c) :
    CartMono a c :=
  ⟨h2.1.trans h1.1, fun h => h2.2.1 (h1.2.1 h), fun h => h2.2.2.1 (h1.2.2.1 h),
   fun h => h2.2.2.2.1 (h1.2.2.2.1 h), fun h => h2.2.2.2.2 (h1.2.2.2.2 h)⟩

theorem cartsMono_map {f : Cart → Cart} (hf : ∀ c, CartMono c (f c))
    (l : List Cart) : ∀ c ∈ l, ∃ c' ∈ l.map f, CartMono c c' :=
  fun c hc => ⟨f c, List.mem_map.2 ⟨c, hc, rfl⟩, hf c⟩

theorem conflictUpdate_mono (now : Int) (cartId : String)
    (email : Option String) (custId : Option Int) (cdata : CartData)
    (ctotal : Int) (c : Cart) :
    CartMono c (conflictUpdate now cartId email custId cdata ctotal c) := by
  unfold conflictUpdate CartMono
  split <;> simp

theorem processCartCandidate_carts_mono (cfg : Config)
    (deliver : String → Bool) (now : Int) :
    ∀ (st : Store) (cand : Cart), ∀ c ∈ st.carts,
      ∃ c' ∈ (processCartCandidate cfg deliver now st cand).carts,
        CartMono c c' := by
  intro st cand c hc
  cases hm : cand.customer_email with
  | none =>
    refine ⟨c, ?_, cartMono_refl c⟩
    simp [processCartCandidate, hm, hc]
  | some email =>
    by_cases h1 : restrictedSkip cfg email = true
    · refine ⟨c, ?_, cartMono_refl c⟩
      simp [processCartCandidate, hm, h1, hc]
    · rw [Bool.not_eq_true] at h1
      by_cases h2 : sendEmailViaMailerLite cfg deliver email = true
      · refine ⟨if c.id == cand.id then { c with email_sent_1 := true } else c, ?_, ?_⟩
        · have : (processCartCandidate cfg deliver now st cand).carts =
              st.carts.map (fun r =>
                if r.id == cand.id then { r with email_sent_1 := true } else r) := by
            simp [processCartCandidate, hm, h1, h2]
          rw [this]
          exact List.mem_map.2 ⟨c, hc, rfl⟩
        · by_cases h3 : c.id == cand.id <;> simp [h3, CartMono]
      · rw [Bool.not_eq_true] at h2
        refine ⟨c, ?_, cartMono_refl c⟩
        simp [processCartCandidate, hm, h1, h2, hc]

theorem processBrowseCandidate_carts (cfg : Config) (deliver : String → Bool)
    (now : Int) (st : Store) (email : String) :
    (processBrowseCandidate cfg deliver now st email).carts = st.carts := by
  unfold processBrowseCandidate
  by_cases h1 : restrictedSkip cfg email = true
  · simp [h1]
  · rw [Bool.not_eq_true] at h1
    simp only [h1, Bool.false_eq_true, if_false]
    cases hm : (selectEligibleProducts st now email).head? with
    | none => rfl
    | some top =>
      by_cases h2 : sendEmailViaMailerLite cfg deliver email = true <;>
        simp [h2]

theorem foldl_carts_mono {β : Type} (step : Store → β → Store)
    (hstep : ∀ (st : Store) (b : β), ∀ c ∈ st.carts,
      ∃ c' ∈ (step st b).carts, CartMono c c') :
    ∀ (l : List β) (st : Store), ∀ c ∈ st.carts,
      ∃ c' ∈ (l.foldl step st).carts, CartMono c c' := by
  intro l
  induction l with
  | nil => intro st c hc; exact ⟨c, hc, cartMono_refl c⟩
  | cons b bs ih =>
    intro st c hc
    rw [List.foldl_cons]
    obtain ⟨c2, hc2, hm⟩ := hstep st b c hc
    obtain ⟨c3, hc3, hm2⟩ := ih (step st b) c2 hc2
    exact ⟨c3, hc3, cartMono_trans hm hm2⟩

/-- C4: the flags `converted` and `email_sent_1` / `2` / `3` are monotonic:
whatever operation of the service is applied (upsert, conversion, view
append, cart scan, browse scan), every cart row has a successor row with
the same identifier in which no flag that was `true` has reverted. -/
theorem cart_flags_monotone (st : Store) (op : Op) :
    ∀ c ∈ st.carts, ∃ c' ∈ (applyOp st op).carts,
      c'.cart_id = c.cart_id ∧
      (c.converted = true → c'.converted = true) ∧
      (c.email_sent_1 = true → c'.email_sent_1 = true) ∧
      (c.email_sent_2 = true → c'.email_sent_2 = true) ∧
      (c.email_sent_3 = true → c'.email_sent_3 = true) := by
  have key : ∀ c ∈ st.carts, ∃ c' ∈ (applyOp st op).carts, CartMono c c' := by
    cases op with
    | upsert now freshId cartId email custId cdata ctotal =>
      simp only [applyOp]
      unfold upsertCart
      split
      · exact cartsMono_map
          (conflictUpdate_mono now cartId email custId cdata ctotal) st.carts
      · intro c hc
        exact ⟨c, List.mem_append_left _ hc, cartMono_refl c⟩
    | convert now cartId =>
      intro c hc
      simp only [applyOp]
      unfold markConverted
      refine ⟨_, List.mem_map.2 ⟨c, hc, rfl⟩, ?_⟩
      by_cases h : c.cart_id == cartId <;> simp [h, CartMono]
    | view now freshId sessionId email productId name url image price =>
      intro c hc
      exact ⟨c, hc, cartMono_refl c⟩
    | cartScan cfg deliver now =>
      simp only [applyOp]
      unfold processAbandonedCarts
      exact foldl_carts_mono _ (processCartCandidate_carts_mono cfg deliver now) _ st
    | browseScan cfg deliver now =>
      simp only [applyOp]
      unfold processBrowseAbandonment
      refine foldl_carts_mono _ ?_ _ st
      intro st2 e c hc
      refine ⟨c, ?_, cartMono_refl c⟩
      rw [processBrowseCandidate_carts]
      exact hc
  intro c hc
  obtain ⟨c', hc', hm⟩ := key c hc
  exact ⟨c', hc', hm.1, hm.2.1, hm.2.2.1, hm.2.2.2.1, hm.2.2.2.2⟩

/-- C4 witness: applying the monotonicity theorem to the conversion
operation at the concrete store. -/
theorem cart_flags_monotone_witness :
    ∃ c' ∈ (applyOp stW (Op.convert 10000 "CW")).carts,
      c'.cart_id = exCartW.cart_id ∧
      (exCartW.converted = true → c'.converted = true) ∧
      (exCartW.email_sent_1 = true → c'.email_sent_1 = true) ∧
      (exCartW.email_sent_2 = true → c'.email_sent_2 = true) ∧
      (exCartW.email_sent_3 = true → c'.email_sent_3 = true) :=
  cart_flags_monotone stW (Op.convert 10000 "CW") exCartW (by decide)

/-- C9 (modelled from the spec):
`findCartIdentifierWithoutEmailRecent` returns "none" exactly when no
non-converted email-less cart was updated within the window, otherwise the
identifier of such a cart with maximal update time; and the association
step sets the found cart's email to the learned address. -/
theorem findCart_spec (st : Store) (now windowMinutes : Int) :
    (findCartIdentifierWithoutEmailRecent st now windowMinutes = none ↔
      ∀ c ∈ st.carts, c.converted = false →
        emailPresent c.customer_email = false →
        c.updated_at ≤ now - windowMinutes * 60) ∧
    (∀ cid, findCartIdentifierWithoutEmailRecent st now windowMinutes = some cid →
      ∃ c ∈ st.carts, c.cart_id = cid ∧ c.converted = false ∧
        emailPresent c.customer_email = false ∧
        now - windowMinutes * 60 < c.updated_at ∧
        ∀ c' ∈ st.carts, c'.converted = false →
          emailPresent c'.customer_email = false →
          now - windowMinutes * 60 < c'.updated_at →
          c'.updated_at ≤ c.updated_at) ∧
    (∀ cid email, ∀ c' ∈ (associateCartEmail st cid email).carts,
      c'.cart_id = cid → c'.customer_email = some email) := by
  refine ⟨?_, ?_, ?_⟩
  · unfold findCartIdentifierWithoutEmailRecent
    rw [Option.map_eq_none', mostRecentlyUpdated_eq_none,
      List.filter_eq_nil_iff]
    constructor
    · intro h c hc h1 h2
      have := h c hc
      simp only [Bool.and_eq_true, Bool.not_eq_true', decide_eq_true_eq,
        not_and, gt_iff_lt] at this
      by_contra hlt
      exact this ⟨h1, h2⟩ (by omega)
    · intro h c hc
      simp only [Bool.and_eq_true, Bool.not_eq_true', decide_eq_true_eq,
        not_and, gt_iff_lt]
      intro h12 h3
      have := h c hc h12.1 h12.2
      omega
  · intro cid hcid
    unfold findCartIdentifierWithoutEmailRecent at hcid
    rw [Option.map_eq_some'] at hcid
    obtain ⟨m, hm, hmid⟩ := hcid
    obtain ⟨hmem, hmax⟩ := mostRecentlyUpdated_spec hm
    have hmf := List.mem_filter.1 hmem
    have hmp := hmf.2
    simp only [Bool.and_eq_true, Bool.not_eq_true', decide_eq_true_eq,
      gt_iff_lt] at hmp
    refine ⟨m, hmf.1, hmid, hmp.1.1, hmp.1.2, hmp.2, ?_⟩
    intro c' hc' h1 h2 h3
    refine hmax c' (List.mem_filter.2 ⟨hc', ?_⟩)
    simp [h1, h2, h3]
  · intro cid email c' hc' hid
    unfold associateCartEmail at hc'
    obtain ⟨a, _, rfl⟩ := List.mem_map.1 hc'
    by_cases h : a.cart_id == cid
    · simp [h]
    · rw [if_neg h] at hid
      exact absurd (by simp [hid]) h

/-- C9 witness: the 20-minutes-old email-less cart `C1` is found with a
30-minute window at time 10000, and after the association its email is the
learned address. -/
theorem findCart_spec_witness :
    (∃ c ∈ stC9.carts, c.cart_id = "C1" ∧ c.converted = false ∧
      emailPresent c.customer_email = false ∧
      10000 - 30 * 60 < c.updated_at ∧
      ∀ c' ∈ stC9.carts, c'.converted = false →
        emailPresent c'.customer_email = false →
        10000 - 30 * 60 < c'.updated_at →
        c'.updated_at ≤ c.updated_at) ∧
    (∀ c' ∈ (associateCartEmail stC9 "C1" "u@x.com").carts,
      c'.cart_id = "C1" → c'.customer_email = some "u@x.com") := by
  have h := findCart_spec stC9 10000 30
  exact ⟨h.2.1 "C1" (by decide), h.2.2 "C1" "u@x.com"⟩

/-- C10 witness: applying the conflict-frame theorem at the concrete store
holding the cart `CW`. -/
theorem upsert_conflict_frame_witness :
    ((upsertCart stW 20000 9 "CW" (some "b@x.com") none exData 3).carts =
      stW.carts.map (conflictUpdate 20000 "CW" (some "b@x.com") none exData 3)) ∧
    (conflictUpdate 20000 "CW" (some "b@x.com") none exData 3 exCartW).converted =
      exCartW.converted := by
  have h := upsert_conflict_frame stW 20000 9 "CW" (some "b@x.com") none exData 3
    (by exact ⟨exCartW, by decide, by decide⟩)
  exact ⟨h.1, (h.2.1 exCartW).2.2.2.1⟩

end AbandonedCart
